import Mathlib

/-!
Verification model of `src/desktop_app.py` (DeployedClientRecognizeMe).

The program is a Tk webcam client: a timer-driven tick (`CameraApp.update_frame`)
reads a frame, detects faces, and either accumulates enrollment samples
(`adding_user_mode`) or performs cache-then-network recognition, then renders
and reschedules.  We embed the per-tick control flow as a pure state-transition
function producing a trace of observable effects (network calls, overlay
drawing, dialogs, rescheduling).  Image operations (capture, cvtColor,
detectMultiScale, imencode) are modelled by their outputs: each tick comes with
the list of detected faces, each carrying its JPEG-encoded crop as a byte list,
and with the behaviour of the two HTTP endpoints for this tick.  Exceptions
raised inside the processing part of the `try` block of `update_frame`
(e.g. by `detectMultiScale`) are modelled by a per-tick flag: when set, the
tick takes the `except` path of lines 125-127 (error dialog, no reschedule).

`hashlib.sha256(...).hexdigest()` (`CameraApp.hash_face_encoding`, line 156-157)
is embedded as a full executable SHA-256 over byte lists, producing the
lowercase hex digest string used as the cache key.
-/

/-! ## SHA-256 (FIPS 180-4), over lists of bytes (each entry < 256) -/

/-- Truncate to a 32-bit word. -/
def w32 (x : Nat) : Nat := x % 4294967296

/-- 32-bit addition modulo 2^32. -/
def add32 (a b : Nat) : Nat := (a + b) % 4294967296

/-- 32-bit right rotation by n. -/
def rotr32 (n x : Nat) : Nat := w32 ((x >>> n) ||| (x <<< (32 - n)))

/-- SHA-256 big sigma 0. -/
def bsig0 (x : Nat) : Nat := rotr32 2 x ^^^ rotr32 13 x ^^^ rotr32 22 x

/-- SHA-256 big sigma 1. -/
def bsig1 (x : Nat) : Nat := rotr32 6 x ^^^ rotr32 11 x ^^^ rotr32 25 x

/-- SHA-256 small sigma 0. -/
def ssig0 (x : Nat) : Nat := rotr32 7 x ^^^ rotr32 18 x ^^^ (x >>> 3)

/-- SHA-256 small sigma 1. -/
def ssig1 (x : Nat) : Nat := rotr32 17 x ^^^ rotr32 19 x ^^^ (x >>> 10)

/-- SHA-256 choice function; 4294967295 is the 32-bit all-ones mask (bitwise not). -/
def chF (x y z : Nat) : Nat := (x &&& y) ^^^ ((x ^^^ 4294967295) &&& z)

/-- SHA-256 majority function. -/
def majF (x y z : Nat) : Nat := (x &&& y) ^^^ (x &&& z) ^^^ (y &&& z)

/-- The 64 SHA-256 round constants. -/
def shaK : List Nat :=
  [1116352408, 1899447441, 3049323471, 3921009573, 961987163, 1508970993,
   2453635748, 2870763221, 3624381080, 310598401, 607225278, 1426881987,
   1925078388, 2162078206, 2614888103, 3248222580, 3835390401, 4022224774,
   264347078, 604807628, 770255983, 1249150122, 1555081692, 1996064986,
   2554220882, 2821834349, 2952996808, 3210313671, 3336571891, 3584528711,
   113926993, 338241895, 666307205, 773529912, 1294757372, 1396182291,
   1695183700, 1986661051, 2177026350, 2456956037, 2730485921, 2820302411,
   3259730800, 3345764771, 3516065817, 3600352804, 4094571909, 275423344,
   430227734, 506948616, 659060556, 883997877, 958139571, 1322822218,
   1537002063, 1747873779, 1955562222, 2024104815, 2227730452, 2361852424,
   2428436474, 2756734187, 3204031479, 3329325298]

/-- The SHA-256 initial hash value. -/
def shaH0 : List Nat :=
  [1779033703, 3144134277, 1013904242, 2773480762,
   1359893119, 2600822924, 528734635, 1541459225]

/-- Big-endian byte decomposition of a number into n bytes (most significant first). -/
def beBytes : Nat → Nat → List Nat
  | 0, _ => []
  | n + 1, x => beBytes n (x >>> 8) ++ [x % 256]

/-- SHA-256 message padding: append 0x80, zeros to 56 mod 64, then the 64-bit
big-endian bit length. -/
def padMessage (msg : List Nat) : List Nat :=
  let zeros := (64 - (msg.length + 9) % 64) % 64
  msg ++ [0x80] ++ List.replicate zeros 0 ++ beBytes 8 (msg.length * 8)

/-- Group bytes into big-endian 32-bit words (the input length is a multiple of 4). -/
def bytesToWords : List Nat → List Nat
  | b0 :: b1 :: b2 :: b3 :: rest =>
      (b0 * 16777216 + b1 * 65536 + b2 * 256 + b3) :: bytesToWords rest
  | _ => []

/-- Split a word list into 16-word blocks (the input length is a multiple of 16). -/
def chunks16 : List Nat → List (List Nat)
  | a0 :: a1 :: a2 :: a3 :: a4 :: a5 :: a6 :: a7 ::
    a8 :: a9 :: a10 :: a11 :: a12 :: a13 :: a14 :: a15 :: rest =>
      [a0, a1, a2, a3, a4, a5, a6, a7, a8, a9, a10, a11, a12, a13, a14, a15] :: chunks16 rest
  | _ => []

/-- Extend a 16-word block by n further message-schedule words. -/
def extendSchedule : Nat → List Nat → List Nat
  | 0, ws => ws
  | n + 1, ws =>
      let t := ws.length
      let w := add32 (add32 (ssig1 (ws.getD (t - 2) 0)) (ws.getD (t - 7) 0))
                     (add32 (ssig0 (ws.getD (t - 15) 0)) (ws.getD (t - 16) 0))
      extendSchedule n (ws ++ [w])

/-- One SHA-256 compression round on the working state [a,b,c,d,e,f,g,h]. -/
def compressRound (st : List Nat) (kt wt : Nat) : List Nat :=
  match st with
  | [a, b, c, d, e, f, g, h] =>
      let t1 := add32 h (add32 (bsig1 e) (add32 (chF e f g) (add32 kt wt)))
      let t2 := add32 (bsig0 a) (majF a b c)
      [add32 t1 t2, a, b, c, add32 d t1, e, f, g]
  | other => other

/-- Run the 64 compression rounds over the round constants and schedule words. -/
def compressRounds : List Nat → List Nat → List Nat → List Nat
  | st, k :: ks, w :: ws => compressRounds (compressRound st k w) ks ws
  | st, _, _ => st

/-- Compress one 16-word block into the running hash value. -/
def compressBlock (h : List Nat) (block : List Nat) : List Nat :=
  List.zipWith add32 h (compressRounds h shaK (extendSchedule 48 block))

/-- SHA-256 digest (32 bytes) of a byte list. -/
def sha256Bytes (msg : List Nat) : List Nat :=
  ((chunks16 (bytesToWords (padMessage msg))).foldl compressBlock shaH0).foldr
    (fun w acc => beBytes 4 w ++ acc) []

/-- Lowercase hex character for a value < 16. -/
def hexChar (n : Nat) : Char :=
  if n < 10 then Char.ofNat (48 + n) else Char.ofNat (87 + n)

/-- Lowercase hex string of a byte list. -/
def hexOfBytes (bs : List Nat) : String :=
  String.mk (bs.foldr (fun b acc => hexChar (b / 16) :: hexChar (b % 16) :: acc) [])

/-- Model of `CameraApp.hash_face_encoding` (line 156-157):
`hashlib.sha256(encoding).hexdigest()` — the content hash keying the cache. -/
def hash_face_encoding (encoding : List Nat) : String :=
  hexOfBytes (sha256Bytes encoding)

/-! ## Data model of the orchestrator -/

/-- A detected face: the bounding box (x, y, w, h) from `detectMultiScale`
together with the JPEG bytes of its crop, `cv2.imencode('.jpg', face_roi)`. -/
structure Face where
  box : Nat × Nat × Nat × Nat
  crop : List Nat
  deriving Repr, DecidableEq

/-- Outcome of one `requests.post(recognize_url, ...)` call as the tick observes
it: `success jn` is a 2xx response whose JSON body has `jn` as its optional
`name` field (`response.json().get('name', 'Unknown')`); `failure` is any
`requests.exceptions.RequestException` — a transport error, or a non-2xx
status turned into `HTTPError` by `response.raise_for_status()`. -/
inductive NetResult where
  | success : Option String → NetResult
  | failure : NetResult
  deriving Repr, DecidableEq

/-- Observable side effects of one tick of the app. -/
inductive Effect where
  /-- `requests.post(recognize_url, files=...)` with the crop bytes (line 107). -/
  | recognizeCall : List Nat → Effect
  /-- `requests.post(add_user_url, files=..., data=\x7b'name': ...\x7d)` (line 141):
  the user name and the list of encoded crops sent in one multipart request. -/
  | enrollCall : String → List (List Nat) → Effect
  /-- `cv2.rectangle` drawn on the frame in enrollment mode (line 86). -/
  | drawRect : Nat × Nat × Nat × Nat → Effect
  /-- `CameraApp.draw_rectangle` (lines 151-154): box plus label text. -/
  | drawBoxLabel : Nat × Nat × Nat × Nat → String → Effect
  /-- `messagebox.showinfo`. -/
  | showInfo : Effect
  /-- `messagebox.showwarning`. -/
  | showWarning : Effect
  /-- `messagebox.showerror`. -/
  | showError : Effect
  /-- Rendering the frame to the canvas (lines 120-121). -/
  | render : Effect
  /-- `self.root.after(10, self.update_frame)`: the next tick is scheduled. -/
  | scheduleNext : Effect
  deriving Repr, DecidableEq

/-- The mutable state of `CameraApp` relevant to the orchestration loop:
the mode flag and sample buffer (lines 43-45) and the module-level
`recognized_faces_cache` (line 19), modelled as an association list from
hex-digest keys to labels where a lookup takes the most recent binding
(matching dict assignment semantics). -/
structure AppState where
  adding_user_mode : Bool
  num_photos : Nat
  encodings : List (List Nat)
  cache : List (String × String)
  deriving Repr, DecidableEq

/-- `CameraApp.__init__` (lines 43-45) with an empty cache (line 19). -/
def initState : AppState :=
  { adding_user_mode := false, num_photos := 5, encodings := [], cache := [] }

/-- Dict lookup: `face_hash in recognized_faces_cache` /
`recognized_faces_cache[face_hash]` (lines 103-104). -/
def cacheGet : List (String × String) → String → Option String
  | [], _ => none
  | (k, v) :: rest, h => if k = h then some v else cacheGet rest h

/-- The environment of one tick: everything the tick observes from outside the
app state.  `ret` is the boolean result of `video_capture.read()`; `procRaises`
models an exception raised while processing the frame inside the `try` block
(caught by the `except` of lines 125-127); `faces` is the output of
`detectMultiScale` with each crop already encoded; `net` gives the recognition
endpoint's behaviour per crop; `nameInput` is what `simpledialog.askstring`
would return if the tick completes enrollment (`none` = cancelled);
`enrollOk` is whether the enrollment POST would succeed (2xx). -/
structure TickInput where
  ret : Bool
  procRaises : Bool
  faces : List Face
  net : List Nat → NetResult
  nameInput : Option String
  enrollOk : Bool

/-- Python truthiness of `user_name` after `askstring`: truthy iff it is a
non-empty string (`askstring` returns `None` on cancel). -/
def truthyName : Option String → Bool
  | some s => !s.isEmpty
  | none => false

/-- Model of `CameraApp.complete_add_user` (lines 134-149): leave adding mode,
prompt for a name; on a truthy name POST all buffered encodings with the name
in one multipart request and report success or error; otherwise warn.  The
sample buffer `encodings` is not touched on any branch. -/
def complete_add_user (s : AppState) (nameInput : Option String) (enrollOk : Bool) :
    AppState × List Effect :=
  let s1 := { s with adding_user_mode := false }
  if truthyName nameInput then
    if enrollOk then
      (s1, [Effect.enrollCall (nameInput.getD "") s1.encodings, Effect.showInfo])
    else
      (s1, [Effect.enrollCall (nameInput.getD "") s1.encodings, Effect.showError])
  else
    (s1, [Effect.showWarning])

/-- Model of `CameraApp.prepare_to_add_user` (lines 129-132): enter adding
mode, reset the sample buffer, show an info dialog. -/
def prepare_to_add_user (s : AppState) : AppState × List Effect :=
  ({ s with adding_user_mode := true, encodings := [] }, [Effect.showInfo])

/-- The enrollment-mode face loop of `update_frame` (lines 84-95): for each
face draw a rectangle and append the encoded crop; when the buffer reaches
`num_photos`, run `complete_add_user` and `break`. -/
def process_adding (nameInput : Option String) (enrollOk : Bool) :
    AppState → List Face → AppState × List Effect
  | s, [] => (s, [])
  | s, f :: rest =>
      let s1 := { s with encodings := s.encodings ++ [f.crop] }
      if s1.num_photos ≤ s1.encodings.length then
        let r := complete_add_user s1 nameInput enrollOk
        (r.1, Effect.drawRect f.box :: r.2)
      else
        let r := process_adding nameInput enrollOk s1 rest
        (r.1, Effect.drawRect f.box :: r.2)

/-- The recognition-mode face loop of `update_frame` (lines 97-118): for each
face hash the encoded crop; on a cache hit use the cached label; on a miss POST
to the recognition endpoint — on success take the response's `name` field
defaulting to "Unknown" and store it in the cache, on a
`RequestException` use "Unknown" without touching the cache — then draw the
box with the label. -/
def process_idle (net : List Nat → NetResult) :
    AppState → List Face → AppState × List Effect
  | s, [] => (s, [])
  | s, f :: rest =>
      let h := hash_face_encoding f.crop
      match cacheGet s.cache h with
      | some name =>
          let r := process_idle net s rest
          (r.1, Effect.drawBoxLabel f.box name :: r.2)
      | none =>
          match net f.crop with
          | NetResult.success jn =>
              let name := jn.getD "Unknown"
              let s1 := { s with cache := (h, name) :: s.cache }
              let r := process_idle net s1 rest
              (r.1, Effect.recognizeCall f.crop ::
                    Effect.drawBoxLabel f.box name :: r.2)
          | NetResult.failure =>
              let r := process_idle net s rest
              (r.1, Effect.recognizeCall f.crop ::
                    Effect.drawBoxLabel f.box "Unknown" :: r.2)

/-- Model of `CameraApp.update_frame` (lines 68-127).  A failed read
reschedules and returns (lines 71-73).  An exception raised while processing
takes the `except` path: error dialog, and — the `root.after` of line 123
being inside the `try` — no reschedule.  Otherwise the mode's face loop runs,
the frame is rendered, and the next tick is scheduled. -/
def update_frame (s : AppState) (inp : TickInput) : AppState × List Effect :=
  if inp.ret = false then
    (s, [Effect.scheduleNext])
  else if inp.procRaises then
    (s, [Effect.showError])
  else
    let r := if s.adding_user_mode then
               process_adding inp.nameInput inp.enrollOk s inp.faces
             else
               process_idle inp.net s inp.faces
    (r.1, r.2 ++ [Effect.render, Effect.scheduleNext])

/-- A user-visible event driving the app: one timer tick, or a click of the
"Add User" button (which runs `prepare_to_add_user`). -/
inductive UIEvent where
  | tick : TickInput → UIEvent
  | addUserClick : UIEvent

/-- State transition for one event. -/
def step (s : AppState) : UIEvent → AppState
  | UIEvent.tick inp => (update_frame s inp).1
  | UIEvent.addUserClick => (prepare_to_add_user s).1

/-- Run a sequence of events from a state. -/
def run : AppState → List UIEvent → AppState
  | s, [] => s
  | s, e :: es => run (step s e) es

/-! ## Helper predicates over effects -/

/-- Is this effect an HTTP request (recognition or enrollment)? -/
def isNetworkCall : Effect → Bool
  | Effect.recognizeCall _ => true
  | Effect.enrollCall _ _ => true
  | _ => false

/-- Is this effect a drawing on the frame (overlay box or box-with-label)? -/
def isDrawing : Effect → Bool
  | Effect.drawRect _ => true
  | Effect.drawBoxLabel _ _ => true
  | _ => false

/-- Number of enrollment POSTs in an effect trace. -/
def countEnrollCalls (effs : List Effect) : Nat :=
  (effs.filter (fun e => match e with
    | Effect.enrollCall _ _ => true
    | _ => false)).length

/-! ## Concrete inputs used by counterexamples and witnesses -/

/-- A face with crop bytes [1, 2, 3]. -/
def faceA : Face := { box := (0, 0, 10, 10), crop := [1, 2, 3] }

/-- A face at another position whose crop is byte-identical to `faceA`. -/
def faceB : Face := { box := (20, 20, 10, 10), crop := [1, 2, 3] }

/-- Recognition endpoint that always fails (transport error or non-2xx). -/
def netFail : List Nat → NetResult := fun _ => NetResult.failure

/-- Recognition endpoint that always answers 2xx with name "Alice". -/
def netAlice : List Nat → NetResult := fun _ => NetResult.success (some "Alice")

/-- Recognition endpoint that answers 2xx with a JSON body lacking a name field. -/
def netNoName : List Nat → NetResult := fun _ => NetResult.success none

/-- A tick observing one face while the recognition endpoint is unreachable. -/
def tickFail : TickInput :=
  { ret := true, procRaises := false, faces := [faceA], net := netFail,
    nameInput := none, enrollOk := true }

/-- A tick in which frame processing raises an exception (caught at lines 125-127). -/
def tickRaise : TickInput :=
  { ret := true, procRaises := true, faces := [], net := netFail,
    nameInput := none, enrollOk := true }

/-- A tick whose frame yields no detected faces. -/
def tickEmpty : TickInput :=
  { ret := true, procRaises := false, faces := [], net := netFail,
    nameInput := none, enrollOk := true }

/-- A full sample buffer of five encoded crops. -/
def fullBuffer : List (List Nat) := [[0], [1], [2], [3], [4]]

/-- An app state mid-enrollment holding five buffered samples. -/
def enrollingState : AppState :=
  { adding_user_mode := true, num_photos := 5, encodings := fullBuffer, cache := [] }

/-- Five faces detected in one tick. -/
def fiveFaces : List Face :=
  [{ box := (0, 0, 1, 1), crop := [10] }, { box := (0, 0, 1, 1), crop := [11] },
   { box := (0, 0, 1, 1), crop := [12] }, { box := (0, 0, 1, 1), crop := [13] },
   { box := (0, 0, 1, 1), crop := [14] }]

/-- The crops of `fiveFaces`. -/
def fiveCrops : List (List Nat) := [[10], [11], [12], [13], [14]]

/-- A tick capturing `fiveFaces` in which the user enters the name "Bob". -/
def tickBob : TickInput :=
  { ret := true, procRaises := false, faces := fiveFaces, net := netFail,
    nameInput := some "Bob", enrollOk := true }

/-- A tick detecting two faces. -/
def tickTwo : TickInput :=
  { ret := true, procRaises := false,
    faces := [{ box := (0, 0, 1, 1), crop := [21] }, { box := (0, 0, 1, 1), crop := [22] }],
    net := netFail, nameInput := none, enrollOk := true }

/-! ## Helper lemmas -/

/-- `complete_add_user` only flips the mode flag: every branch returns the
input state with `adding_user_mode := false`; in particular the sample buffer
and the cache are untouched. -/
theorem complete_add_user_fst (s : AppState) (n : Option String) (ok : Bool) :
    (complete_add_user s n ok).1 = { s with adding_user_mode := false } := by
  cases h : truthyName n <;> cases ok <;> simp [complete_add_user, h]

/-- Effects of `complete_add_user` under a truthy name: one enrollment POST of
the whole buffer, then a success or error dialog. -/
theorem complete_add_user_effects_of_truthy (s : AppState) (n : Option String) (ok : Bool)
    (h : truthyName n = true) :
    (complete_add_user s n ok).2 =
      Effect.enrollCall (n.getD "") s.encodings ::
        (if ok then [Effect.showInfo] else [Effect.showError]) := by
  cases ok <;> simp [complete_add_user, h]

/-- Effects of `complete_add_user` under an empty or cancelled name: only a
warning dialog. -/
theorem complete_add_user_effects_of_untruthy (s : AppState) (n : Option String) (ok : Bool)
    (h : truthyName n = false) :
    (complete_add_user s n ok).2 = [Effect.showWarning] := by
  simp [complete_add_user, h]

/-- The recognition loop only touches the cache: mode flag, photo count and
sample buffer pass through unchanged. -/
theorem process_idle_fields (net : List Nat → NetResult) :
    ∀ (faces : List Face) (s : AppState),
      (process_idle net s faces).1.adding_user_mode = s.adding_user_mode ∧
      (process_idle net s faces).1.num_photos = s.num_photos ∧
      (process_idle net s faces).1.encodings = s.encodings := by
  intro faces
  induction faces with
  | nil => intro s; simp [process_idle]
  | cons f rest ih =>
      intro s
      simp only [process_idle]
      cases hc : cacheGet s.cache (hash_face_encoding f.crop) with
      | some name => simpa using ih s
      | none =>
          cases hn : net f.crop with
          | success jn => simpa using ih _
          | failure => simpa using ih s

/-- The enrollment loop keeps the photo count, and whenever it leaves the app
still in adding mode the buffer is still strictly below the photo count. -/
theorem process_adding_bound (nameInput : Option String) (enrollOk : Bool) :
    ∀ (faces : List Face) (s : AppState),
      s.encodings.length < s.num_photos →
      (process_adding nameInput enrollOk s faces).1.num_photos = s.num_photos ∧
      ((process_adding nameInput enrollOk s faces).1.adding_user_mode = true →
        (process_adding nameInput enrollOk s faces).1.encodings.length < s.num_photos) := by
  intro faces
  induction faces with
  | nil => intro s hlt; exact ⟨rfl, fun _ => hlt⟩
  | cons f rest ih =>
      intro s hlt
      simp only [process_adding]
      split
      next hfull =>
        rw [complete_add_user_fst]
        exact ⟨rfl, fun h => nomatch h⟩
      next hfull =>
        exact ih { s with encodings := s.encodings ++ [f.crop] } (Nat.lt_of_not_le hfull)

/-- `countEnrollCalls` is additive over trace concatenation. -/
theorem countEnrollCalls_append (a b : List Effect) :
    countEnrollCalls (a ++ b) = countEnrollCalls a + countEnrollCalls b := by
  simp [countEnrollCalls]

/-- The steady-state invariant of the orchestrator: the photo count is the
constant 5 and, while in adding mode, the buffer is strictly below it. -/
def modeInv (s : AppState) : Prop :=
  s.num_photos = 5 ∧ (s.adding_user_mode = true → s.encodings.length < 5)

/-- The state reached by one tick, by case on read result, exception flag and
mode. -/
theorem update_frame_fst (s : AppState) (inp : TickInput) :
    (update_frame s inp).1 =
      if inp.ret = false then s
      else if inp.procRaises then s
      else if s.adding_user_mode then
        (process_adding inp.nameInput inp.enrollOk s inp.faces).1
      else (process_idle inp.net s inp.faces).1 := by
  simp only [update_frame]
  split
  · rfl
  · split
    · rfl
    · split <;> rfl

/-- Every UI event preserves the invariant. -/
theorem step_preserves_modeInv (s : AppState) (e : UIEvent) (h : modeInv s) :
    modeInv (step s e) := by
  obtain ⟨hnum, hlen⟩ := h
  cases e with
  | addUserClick =>
      refine ⟨hnum, fun _ => ?_⟩
      simp [step, prepare_to_add_user]
  | tick inp =>
      simp only [step, update_frame_fst]
      split
      · exact ⟨hnum, hlen⟩
      · split
        · exact ⟨hnum, hlen⟩
        · split
          next hmode =>
            have hb := process_adding_bound inp.nameInput inp.enrollOk inp.faces s
              (by rw [hnum]; exact hlen hmode)
            exact ⟨hb.1.trans hnum, fun hm => hnum ▸ hb.2 hm⟩
          next hmode =>
            have hf := process_idle_fields inp.net inp.faces s
            refine ⟨hf.2.1.trans hnum, fun hm => ?_⟩
            rw [hf.2.2]
            exact hlen (hf.1 ▸ hm)

/-- Running any event sequence preserves the invariant. -/
theorem run_preserves_modeInv (events : List UIEvent) :
    ∀ (s : AppState), modeInv s → modeInv (run s events) := by
  induction events with
  | nil => intro s h; exact h
  | cons e es ih => intro s h; exact ih (step s e) (step_preserves_modeInv s e h)

/-! ## C1 — caching of recognition results on network failure -/

/-- C1 (counterexample): in Idle mode, for a face whose crop hash is a cache
miss, a tick during which the recognition endpoint fails substitutes the label
"Unknown" locally but does NOT store it in the cache: starting from the empty
cache, the cache is still empty after the tick, so the network-failure
"Unknown" is not sticky, contrary to the claim that every outcome populates
the cache. -/
theorem recognition_failure_unknown_not_cached_cex :
    cacheGet initState.cache (hash_face_encoding faceA.crop) = none ∧
    (update_frame initState tickFail).2 =
      [Effect.recognizeCall [1, 2, 3], Effect.drawBoxLabel (0, 0, 10, 10) "Unknown",
       Effect.render, Effect.scheduleNext] ∧
    (update_frame initState tickFail).1.cache = [] ∧
    cacheGet (update_frame initState tickFail).1.cache (hash_face_encoding faceA.crop) ≠
      some "Unknown" :=
  ⟨rfl, rfl, rfl, fun h => Option.noConfusion h⟩

/-- C1 (amended): in Idle mode, for a detected face whose crop hash is a cache
miss, the recognition result is stored in the cache only when the HTTP call
succeeds (2xx) — including a server-returned or defaulted "Unknown" — whereas
on a network failure the locally substituted "Unknown" is NOT cached: the
cache is left unchanged and a later byte-identical crop retries the network. -/
theorem recognition_cache_only_on_success (s : AppState) (net : List Nat → NetResult)
    (f : Face) (hmiss : cacheGet s.cache (hash_face_encoding f.crop) = none) :
    (net f.crop = NetResult.failure →
      (process_idle net s [f]).1.cache = s.cache ∧
      (process_idle net s [f]).2 =
        [Effect.recognizeCall f.crop, Effect.drawBoxLabel f.box "Unknown"]) ∧
    (∀ jn, net f.crop = NetResult.success jn →
      (process_idle net s [f]).1.cache =
        (hash_face_encoding f.crop, jn.getD "Unknown") :: s.cache) := by
  constructor
  · intro hfail
    constructor <;> simp [process_idle, hmiss, hfail]
  · intro jn hsucc
    simp [process_idle, hmiss, hsucc]

/-- Witness for C1's amended theorem at concrete inputs: with the empty cache,
a failing endpoint leaves the cache unchanged, and an endpoint answering
"Alice" stores the crop's hash mapped to "Alice". -/
theorem recognition_cache_only_on_success_witness :
    (cacheGet initState.cache (hash_face_encoding faceA.crop) = none ∧
     (process_idle netFail initState [faceA]).1.cache = initState.cache) ∧
    (netAlice faceA.crop = NetResult.success (some "Alice") ∧
     (process_idle netAlice initState [faceA]).1.cache =
       (hash_face_encoding faceA.crop, (some "Alice").getD "Unknown") :: initState.cache) :=
  ⟨⟨rfl, ((recognition_cache_only_on_success initState netFail faceA rfl).1 rfl).1⟩,
   ⟨rfl, (recognition_cache_only_on_success initState netAlice faceA rfl).2 (some "Alice") rfl⟩⟩

/-! ## C2 — tick rescheduling -/

/-- C2 (counterexample): a tick whose frame read succeeds but in which an
exception is raised and caught while processing the frame produces only the
error dialog of the except handler — no `scheduleNext` effect — so the claim
that every tick, including a caught-exception tick, schedules a next tick is
false. -/
theorem caught_exception_not_rescheduled_cex :
    (update_frame initState tickRaise).2 = [Effect.showError] ∧
    Effect.scheduleNext ∉ (update_frame initState tickRaise).2 :=
  ⟨rfl, by decide⟩

/-- C2 (amended): a next tick is scheduled after every tick in which no
exception is raised during frame processing — including ticks whose frame read
fails — but a tick in which a processing exception is raised and caught
schedules no next tick: the render loop stops there instead of continuing
until Quit. -/
theorem reschedule_iff_no_caught_exception (s : AppState) (inp : TickInput) :
    (inp.procRaises = false → Effect.scheduleNext ∈ (update_frame s inp).2) ∧
    (inp.ret = true → inp.procRaises = true →
      Effect.scheduleNext ∉ (update_frame s inp).2) := by
  constructor
  · intro hp
    simp only [update_frame]
    split
    · simp
    · split
      next hr => rw [hp] at hr; cases hr
      · simp
  · intro hret hp
    simp [update_frame, hret, hp]

/-- Witness for C2's amended theorem: an exception-free empty tick reschedules;
the caught-exception tick does not. -/
theorem reschedule_iff_no_caught_exception_witness :
    (tickEmpty.procRaises = false ∧
      Effect.scheduleNext ∈ (update_frame initState tickEmpty).2) ∧
    (tickRaise.ret = true ∧ tickRaise.procRaises = true ∧
      Effect.scheduleNext ∉ (update_frame initState tickRaise).2) :=
  ⟨⟨rfl, (reschedule_iff_no_caught_exception initState tickEmpty).1 rfl⟩,
   ⟨rfl, rfl, (reschedule_iff_no_caught_exception initState tickRaise).2 rfl rfl⟩⟩

/-! ## C3 — discarding of the pending sample buffer -/

/-- C3 (counterexample): completing enrollment from a full five-sample buffer
with a cancelled name prompt warns the user but leaves all five samples in the
buffer, and a completion whose enrollment POST fails likewise retains them:
the pending sample buffer is not discarded, contrary to the claim. -/
theorem enroll_buffer_not_discarded_cex :
    (complete_add_user enrollingState none true).1.encodings = fullBuffer ∧
    (complete_add_user enrollingState none true).1.encodings ≠ [] ∧
    Effect.showWarning ∈ (complete_add_user enrollingState none true).2 ∧
    (complete_add_user enrollingState (some "Bob") false).1.encodings = fullBuffer ∧
    Effect.showError ∈ (complete_add_user enrollingState (some "Bob") false).2 :=
  ⟨rfl, by decide, by decide, rfl, by decide⟩

/-- C3 (amended): when enrollment completes with an empty or cancelled name
the user is warned and no enrollment POST is made, and when the enrollment
POST fails an error dialog is shown; but in every case `complete_add_user`
leaves the sample buffer exactly as it was — the pending samples are discarded
only when the next enrollment session starts (`prepare_to_add_user` resets the
buffer). -/
theorem enroll_completion_retains_buffer (s : AppState) (n : Option String) (ok : Bool) :
    (complete_add_user s n ok).1.encodings = s.encodings ∧
    (truthyName n = false →
      (complete_add_user s n ok).2 = [Effect.showWarning] ∧
      countEnrollCalls (complete_add_user s n ok).2 = 0) ∧
    (truthyName n = true → ok = false →
      Effect.showError ∈ (complete_add_user s n ok).2) ∧
    (prepare_to_add_user s).1.encodings = [] := by
  refine ⟨by simp [complete_add_user_fst], ?_, ?_, rfl⟩
  · intro hn
    rw [complete_add_user_effects_of_untruthy s n ok hn]
    exact ⟨rfl, rfl⟩
  · intro hn hok
    subst hok
    rw [complete_add_user_effects_of_truthy s n false hn]
    simp

/-- Witness for C3's amended theorem: a cancelled prompt on a full buffer, and
a failing POST under the name "Bob". -/
theorem enroll_completion_retains_buffer_witness :
    ((complete_add_user enrollingState none true).1.encodings = enrollingState.encodings ∧
      truthyName (none : Option String) = false ∧
      (complete_add_user enrollingState none true).2 = [Effect.showWarning]) ∧
    (truthyName (some "Bob") = true ∧
      Effect.showError ∈ (complete_add_user enrollingState (some "Bob") false).2) :=
  have h1 := enroll_completion_retains_buffer enrollingState none true
  have h2 := enroll_completion_retains_buffer enrollingState (some "Bob") false
  ⟨⟨h1.1, rfl, (h1.2.1 rfl).1⟩, ⟨by decide, h2.2.2.1 (by decide) rfl⟩⟩

/-! ## C4 — the sample buffer never exceeds five while enrolling -/

/-- C4: starting from the program's initial state and running any sequence of
ticks and "Add User" clicks — with any number of faces detected per tick —
whenever the orchestrator is still in Enrolling mode the sample buffer holds
at most the fixed sample count of 5 encoded crops (in fact strictly fewer,
since reaching 5 immediately completes the session and returns to Idle). -/
theorem enrollment_buffer_never_exceeds_five (events : List UIEvent)
    (h : (run initState events).adding_user_mode = true) :
    (run initState events).encodings.length ≤ 5 := by
  have hinv : modeInv initState := ⟨rfl, fun _ => by decide⟩
  exact Nat.le_of_lt ((run_preserves_modeInv events initState hinv).2 h)

/-- Witness for C4: after clicking "Add User" and one tick capturing two
faces, the app is still enrolling and holds at most five samples. -/
theorem enrollment_buffer_never_exceeds_five_witness :
    (run initState [UIEvent.addUserClick, UIEvent.tick tickTwo]).adding_user_mode = true ∧
    (run initState [UIEvent.addUserClick, UIEvent.tick tickTwo]).encodings.length ≤ 5 :=
  ⟨rfl, enrollment_buffer_never_exceeds_five [UIEvent.addUserClick, UIEvent.tick tickTwo] rfl⟩

/-! ## C5 — empty or cancelled name never calls the enrollment endpoint -/

/-- C5: enrollment completion with an empty name or a cancelled name prompt
performs no enrollment POST at all — no `enrollCall` effect of any payload is
emitted — and the orchestrator is back in Idle mode afterwards. -/
theorem empty_name_never_enrolls (s : AppState) (n : Option String) (ok : Bool)
    (h : truthyName n = false) :
    countEnrollCalls (complete_add_user s n ok).2 = 0 ∧
    (∀ nm cs, Effect.enrollCall nm cs ∉ (complete_add_user s n ok).2) ∧
    (complete_add_user s n ok).1.adding_user_mode = false := by
  refine ⟨?_, ?_, ?_⟩
  · rw [complete_add_user_effects_of_untruthy s n ok h]; rfl
  · intro nm cs
    rw [complete_add_user_effects_of_untruthy s n ok h]
    simp
  · rw [complete_add_user_fst]

/-- Witness for C5: completing with the empty string as name from a full
buffer makes no enrollment call and returns to Idle. -/
theorem empty_name_never_enrolls_witness :
    truthyName (some "") = false ∧
    countEnrollCalls (complete_add_user enrollingState (some "") true).2 = 0 ∧
    Effect.enrollCall "Bob" fullBuffer ∉ (complete_add_user enrollingState (some "") true).2 ∧
    (complete_add_user enrollingState (some "") true).1.adding_user_mode = false :=
  have h := empty_name_never_enrolls enrollingState (some "") true (by decide)
  ⟨by decide, h.1, h.2.1 "Bob" fullBuffer, h.2.2⟩

/-! ## C6 — a tick with zero detected faces -/

/-- C6: a tick whose frame yields zero detected faces — in either mode —
performs no network calls and draws no overlays: the app state is unchanged
and the only effects are rendering the (unmodified) frame and scheduling the
next tick. -/
theorem no_faces_no_network_no_overlay (s : AppState) (inp : TickInput)
    (hret : inp.ret = true) (hraise : inp.procRaises = false)
    (hfaces : inp.faces = []) :
    (update_frame s inp).1 = s ∧
    (update_frame s inp).2 = [Effect.render, Effect.scheduleNext] ∧
    (∀ e ∈ (update_frame s inp).2, isNetworkCall e = false ∧ isDrawing e = false) := by
  have key : update_frame s inp = (s, [Effect.render, Effect.scheduleNext]) := by
    cases hm : s.adding_user_mode <;>
      simp [update_frame, hret, hraise, hfaces, hm, process_adding, process_idle]
  refine ⟨by rw [key], by rw [key], ?_⟩
  rw [key]
  intro e he
  simp only [List.mem_cons, List.not_mem_nil, or_false] at he
  rcases he with rfl | rfl <;> exact ⟨rfl, rfl⟩

/-- Witness for C6: a no-face tick from a mid-enrollment state changes
nothing and emits only render and reschedule. -/
theorem no_faces_no_network_no_overlay_witness :
    (tickEmpty.ret = true ∧ tickEmpty.procRaises = false ∧ tickEmpty.faces = []) ∧
    (update_frame enrollingState tickEmpty).1 = enrollingState ∧
    (update_frame enrollingState tickEmpty).2 = [Effect.render, Effect.scheduleNext] ∧
    (isNetworkCall Effect.render = false ∧ isDrawing Effect.render = false) :=
  have h := no_faces_no_network_no_overlay enrollingState tickEmpty rfl rfl rfl
  ⟨⟨rfl, rfl, rfl⟩, h.1, h.2.1, h.2.2 Effect.render (by simp [h.2.1])⟩

/-! ## C7 — recognition failure degrades to "Unknown" inside the tick -/

/-- C7: in Idle mode, a recognition attempt on a cache miss whose HTTP
transport fails or whose response has a non-2xx status (both raise a
`RequestException`, the latter at `raise_for_status`) is caught locally: the
face's displayed label is "Unknown", the tick still renders the frame and
schedules the next tick, the outer exception handler's error dialog never
appears, and the app state is unchanged. -/
theorem recognition_failure_degrades_gracefully (s : AppState) (inp : TickInput) (f : Face)
    (hmode : s.adding_user_mode = false) (hret : inp.ret = true)
    (hraise : inp.procRaises = false) (hfaces : inp.faces = [f])
    (hmiss : cacheGet s.cache (hash_face_encoding f.crop) = none)
    (hfail : inp.net f.crop = NetResult.failure) :
    (update_frame s inp).2 =
      [Effect.recognizeCall f.crop, Effect.drawBoxLabel f.box "Unknown",
       Effect.render, Effect.scheduleNext] ∧
    Effect.showError ∉ (update_frame s inp).2 ∧
    (update_frame s inp).1 = s := by
  have key : update_frame s inp =
      (s, [Effect.recognizeCall f.crop, Effect.drawBoxLabel f.box "Unknown",
           Effect.render, Effect.scheduleNext]) := by
    simp [update_frame, hret, hraise, hfaces, hmode, process_idle, hmiss, hfail]
  refine ⟨by rw [key], ?_, by rw [key]⟩
  rw [key]
  simp

/-- Witness for C7: the unreachable-endpoint tick on one uncached face. -/
theorem recognition_failure_degrades_gracefully_witness :
    (initState.adding_user_mode = false ∧
     cacheGet initState.cache (hash_face_encoding faceA.crop) = none ∧
     tickFail.net faceA.crop = NetResult.failure) ∧
    (update_frame initState tickFail).2 =
      [Effect.recognizeCall faceA.crop, Effect.drawBoxLabel faceA.box "Unknown",
       Effect.render, Effect.scheduleNext] ∧
    Effect.showError ∉ (update_frame initState tickFail).2 ∧
    (update_frame initState tickFail).1 = initState :=
  ⟨⟨rfl, rfl, rfl⟩,
   recognition_failure_degrades_gracefully initState tickFail faceA rfl rfl rfl rfl rfl rfl⟩

/-! ## C8 — cache put-then-get determinism -/

/-- A cache hit short-circuits the recognition loop: the cached label is drawn
and neither the state nor the network is touched. -/
theorem process_idle_hit (net : List Nat → NetResult) (s : AppState) (f : Face)
    (name : String) (hhit : cacheGet s.cache (hash_face_encoding f.crop) = some name) :
    process_idle net s [f] = (s, [Effect.drawBoxLabel f.box name]) := by
  simp [process_idle, hhit]

/-- C8: the content hash is a deterministic function of the crop's bytes, so
byte-identical crops share a hash; and once a label has been cached for that
hash by a successful recognition, a later lookup for a byte-identical crop is
a cache hit: the same label is drawn with no network call — whatever the
endpoint's behaviour at that time — and the state is unchanged. -/
theorem cache_put_then_get_deterministic (s : AppState)
    (net net2 : List Nat → NetResult) (f g : Face) (jn : Option String)
    (hmiss : cacheGet s.cache (hash_face_encoding f.crop) = none)
    (hnet : net f.crop = NetResult.success jn)
    (hsame : g.crop = f.crop) :
    hash_face_encoding g.crop = hash_face_encoding f.crop ∧
    cacheGet (process_idle net s [f]).1.cache (hash_face_encoding g.crop) =
      some (jn.getD "Unknown") ∧
    (process_idle net2 (process_idle net s [f]).1 [g]).2 =
      [Effect.drawBoxLabel g.box (jn.getD "Unknown")] ∧
    (process_idle net2 (process_idle net s [f]).1 [g]).1 =
      (process_idle net s [f]).1 := by
  have h1 : hash_face_encoding g.crop = hash_face_encoding f.crop := by rw [hsame]
  have hfirst : (process_idle net s [f]).1 =
      { s with cache := (hash_face_encoding f.crop, jn.getD "Unknown") :: s.cache } := by
    simp [process_idle, hmiss, hnet]
  have hget : cacheGet (process_idle net s [f]).1.cache (hash_face_encoding g.crop) =
      some (jn.getD "Unknown") := by
    rw [hfirst, h1]
    simp [cacheGet]
  refine ⟨h1, hget, ?_, ?_⟩
  · rw [process_idle_hit net2 _ g _ hget]
  · rw [process_idle_hit net2 _ g _ hget]

/-- Witness for C8: "Alice" is cached for the crop of `faceA` and the
byte-identical crop of `faceB` then hits the cache even though the endpoint
has become unreachable. -/
theorem cache_put_then_get_deterministic_witness :
    (cacheGet initState.cache (hash_face_encoding faceA.crop) = none ∧
     netAlice faceA.crop = NetResult.success (some "Alice") ∧ faceB.crop = faceA.crop) ∧
    hash_face_encoding faceB.crop = hash_face_encoding faceA.crop ∧
    cacheGet (process_idle netAlice initState [faceA]).1.cache (hash_face_encoding faceB.crop) =
      some ((some "Alice").getD "Unknown") ∧
    (process_idle netFail (process_idle netAlice initState [faceA]).1 [faceB]).2 =
      [Effect.drawBoxLabel faceB.box ((some "Alice").getD "Unknown")] ∧
    (process_idle netFail (process_idle netAlice initState [faceA]).1 [faceB]).1 =
      (process_idle netAlice initState [faceA]).1 :=
  ⟨⟨rfl, rfl, rfl⟩,
   cache_put_then_get_deterministic initState netAlice netFail faceA faceB (some "Alice")
     rfl rfl rfl⟩

/-! ## C9 — completion sends exactly one request with exactly five crops -/

/-- If the app is mid-session with fewer than five samples and the tick
detects enough faces to reach five, the enrollment loop completes under a
truthy name: exactly one enrollment POST, whose payload is the name and
exactly five crops, and adding mode is left. -/
theorem process_adding_complete (nameInput : Option String) (enrollOk : Bool)
    (hname : truthyName nameInput = true) :
    ∀ (faces : List Face) (s : AppState),
      s.num_photos = 5 → s.encodings.length < 5 →
      5 ≤ s.encodings.length + faces.length →
      countEnrollCalls (process_adding nameInput enrollOk s faces).2 = 1 ∧
      (∀ nm cs, Effect.enrollCall nm cs ∈ (process_adding nameInput enrollOk s faces).2 →
        nm = nameInput.getD "" ∧ cs.length = 5) ∧
      (process_adding nameInput enrollOk s faces).1.adding_user_mode = false := by
  intro faces
  induction faces with
  | nil =>
      intro s hnum hlt hge
      simp only [List.length_nil] at hge
      omega
  | cons f rest ih =>
      intro s hnum hlt hge
      simp only [process_adding]
      split
      next hfull =>
        have hlen5 : (s.encodings ++ [f.crop]).length = 5 := by
          simp only [List.length_append, List.length_cons, List.length_nil] at hfull ⊢
          omega
        refine ⟨?_, ?_, ?_⟩
        · rw [complete_add_user_effects_of_truthy _ _ _ hname]
          cases enrollOk <;> rfl
        · intro nm cs hmem
          rw [complete_add_user_effects_of_truthy _ _ _ hname] at hmem
          cases enrollOk <;> simp at hmem <;>
            exact ⟨hmem.1, by rw [hmem.2]; exact hlen5⟩
        · rw [complete_add_user_fst]
      next hfull =>
        have hlt1 :
            ({ s with encodings := s.encodings ++ [f.crop] } : AppState).encodings.length < 5 := by
          have hl := Nat.lt_of_not_le hfull
          simp only [List.length_append, List.length_cons, List.length_nil] at hl ⊢
          omega
        have ihr := ih { s with encodings := s.encodings ++ [f.crop] } hnum hlt1
          (by
            simp only [List.length_append, List.length_cons, List.length_nil] at hge ⊢
            omega)
        refine ⟨?_, ?_, ihr.2.2⟩
        · simpa [countEnrollCalls] using ihr.1
        · intro nm cs hmem
          rcases List.mem_cons.mp hmem with heq | hmem2
          · simp at heq
          · exact ihr.2.1 nm cs hmem2

/-- C9: when an enrollment session that has so far collected fewer than five
samples completes during a tick (enough faces are detected to reach the
count) with a non-empty user name, exactly one multipart enrollment request
is sent, it carries the user-supplied name and exactly 5 encoded crops, and
the orchestrator is in Idle mode afterwards. -/
theorem enroll_sends_exactly_five (s : AppState) (inp : TickInput)
    (hmode : s.adding_user_mode = true) (hnum : s.num_photos = 5)
    (hlen : s.encodings.length < 5) (hname : truthyName inp.nameInput = true)
    (hret : inp.ret = true) (hraise : inp.procRaises = false)
    (hdone : 5 ≤ s.encodings.length + inp.faces.length) :
    countEnrollCalls (update_frame s inp).2 = 1 ∧
    (∀ nm cs, Effect.enrollCall nm cs ∈ (update_frame s inp).2 →
      nm = inp.nameInput.getD "" ∧ cs.length = 5) ∧
    (update_frame s inp).1.adding_user_mode = false := by
  have key : update_frame s inp =
      ((process_adding inp.nameInput inp.enrollOk s inp.faces).1,
       (process_adding inp.nameInput inp.enrollOk s inp.faces).2 ++
         [Effect.render, Effect.scheduleNext]) := by
    simp [update_frame, hret, hraise, hmode]
  have hp := process_adding_complete inp.nameInput inp.enrollOk hname inp.faces s hnum hlen hdone
  refine ⟨?_, ?_, ?_⟩
  · rw [key]
    simp only [countEnrollCalls_append, hp.1]
    rfl
  · intro nm cs hmem
    rw [key] at hmem
    simp only [List.mem_append] at hmem
    rcases hmem with hmem | hmem
    · exact hp.2.1 nm cs hmem
    · simp at hmem
  · rw [key]
    exact hp.2.2

/-- Witness for C9: "Add User", then one tick capturing five faces and the
name "Bob": one POST with "Bob" and five crops, back to Idle. -/
theorem enroll_sends_exactly_five_witness :
    ((prepare_to_add_user initState).1.adding_user_mode = true ∧
     truthyName tickBob.nameInput = true ∧
     5 ≤ (prepare_to_add_user initState).1.encodings.length + tickBob.faces.length) ∧
    countEnrollCalls (update_frame (prepare_to_add_user initState).1 tickBob).2 = 1 ∧
    (Effect.enrollCall "Bob" fiveCrops ∈ (update_frame (prepare_to_add_user initState).1 tickBob).2 →
      "Bob" = tickBob.nameInput.getD "" ∧ fiveCrops.length = 5) ∧
    (update_frame (prepare_to_add_user initState).1 tickBob).1.adding_user_mode = false :=
  have h := enroll_sends_exactly_five (prepare_to_add_user initState).1 tickBob
    rfl rfl (by decide) (by decide) rfl rfl (by decide)
  ⟨⟨rfl, by decide, by decide⟩, h.1, h.2.1 "Bob" fiveCrops, h.2.2⟩

/-! ## C10 — a 2xx response without a name field -/

/-- C10: on a cache miss, a 2xx recognition response whose JSON body lacks a
name field yields the default label "Unknown", which is stored in the cache
under the crop's hash and drawn for the face — exactly as a server-returned
"Unknown" sentinel would be. -/
theorem missing_name_field_defaults_unknown_and_cached (s : AppState)
    (net : List Nat → NetResult) (f : Face)
    (hmiss : cacheGet s.cache (hash_face_encoding f.crop) = none)
    (hnet : net f.crop = NetResult.success none) :
    (process_idle net s [f]).1.cache =
      (hash_face_encoding f.crop, "Unknown") :: s.cache ∧
    cacheGet (process_idle net s [f]).1.cache (hash_face_encoding f.crop) = some "Unknown" ∧
    (process_idle net s [f]).2 =
      [Effect.recognizeCall f.crop, Effect.drawBoxLabel f.box "Unknown"] := by
  have key : process_idle net s [f] =
      ({ s with cache := (hash_face_encoding f.crop, "Unknown") :: s.cache },
       [Effect.recognizeCall f.crop, Effect.drawBoxLabel f.box "Unknown"]) := by
    simp [process_idle, hmiss, hnet]
  refine ⟨by rw [key], ?_, by rw [key]⟩
  rw [key]
  simp [cacheGet]

/-- Witness for C10: a 2xx response with no name field on the crop of `faceA`
caches and draws "Unknown". -/
theorem missing_name_field_defaults_unknown_and_cached_witness :
    (cacheGet initState.cache (hash_face_encoding faceA.crop) = none ∧
     netNoName faceA.crop = NetResult.success none) ∧
    (process_idle netNoName initState [faceA]).1.cache =
      (hash_face_encoding faceA.crop, "Unknown") :: initState.cache ∧
    cacheGet (process_idle netNoName initState [faceA]).1.cache
      (hash_face_encoding faceA.crop) = some "Unknown" ∧
    (process_idle netNoName initState [faceA]).2 =
      [Effect.recognizeCall faceA.crop, Effect.drawBoxLabel faceA.box "Unknown"] :=
  ⟨⟨rfl, rfl⟩, missing_name_field_defaults_unknown_and_cached initState netNoName faceA rfl rfl⟩
